import Mathlib

/-!
Verification of the Task Reminder client-side synchronization code
(frontend WebSocket hook, type definitions and encoding utilities).

The definitions below are shallow embeddings of the TypeScript source:

* `Task`, `ActionType`, `TaskAction` embed `frontend/src/types/index.ts`;
* `mergeTaskUpdate`, `handleMessage`, `reconnectStep`, `onOpen`,
  `onOpenControl`, `requestTasksControl` embed the `useWebSocket` hook;
* `encodeB64` / `decodeB64` and `blobToBase64` / `base64ToBlob` embed the
  base64 helpers of `frontend/src/utils/api.ts` (with the browser's
  `FileReader.readAsDataURL` and `atob` given their standard semantics).

JavaScript numbers that only ever hold integers (task ids, priorities,
attempt counters, millisecond delays, byte values) are modelled as `Int`
or `Nat`; optional / possibly-absent JSON fields are modelled as `Option`.
-/

namespace TaskReminder

/-- The `Task` record of `frontend/src/types/index.ts`. -/
structure Task where
  id : Int
  description : String
  completed : Bool
  priority : Int
  category : String
  created_at : String
  updated_at : Option String := none
  remind_at : Option String := none
  recurring : Bool
deriving DecidableEq, Repr

/-- A successfully JSON-parsed WebSocket message, after the envelope
`{type, data?, tasks?}` of `frontend/src/types/index.ts`: `data` and
`tasks` are `none` exactly when the field is absent (or `null`, which the
hook's truthiness checks treat the same way). -/
structure WsMessage where
  type : String
  data : Option Task := none
  tasks : Option (List Task) := none
deriving DecidableEq, Repr

/-- What `ws.onmessage` receives: either `JSON.parse` threw (`malformed`,
caught by the surrounding try/catch) or it produced a message object. -/
inductive Inbound where
  | malformed
  | msg (m : WsMessage)
deriving DecidableEq, Repr

/-- The `task_update` merge of `useWebSocket`'s `onmessage`:
map every task with the event's id to the event's task, then append the
event's task when no task with that id was found.  Mirrors

  const updated = prev.map(task => task.id === message.data.id ? message.data : task);
  if (!prev.find(task => task.id === message.data.id)) updated.push(message.data);
-/
def mergeTaskUpdate (prev : List Task) (d : Task) : List Task :=
  let updated := prev.map fun task => if task.id = d.id then d else task
  if (prev.find? fun task => task.id = d.id).isSome then updated
  else updated ++ [d]

/-- The body of `ws.onmessage`: the new value of the `tasks` state given
the old view and the inbound message.  A parse failure is caught and
changes nothing; the `switch` recognises `pong`, `tasks_update` (guarded
by `if (message.tasks)`) and `task_update` (guarded by `if (message.data)`);
any other type only logs.  An empty `tasks` array is truthy in JavaScript,
so `some []` does replace the view. -/
def handleMessage (view : List Task) : Inbound → List Task
  | .malformed => view
  | .msg m =>
    if m.type = "pong" then view
    else if m.type = "tasks_update" then
      match m.tasks with
      | some ts => ts
      | none => view
    else if m.type = "task_update" then
      match m.data with
      | some d => mergeTaskUpdate view d
      | none => view
    else view

/-- `maxReconnectAttempts = 5` in `useWebSocket`. -/
def maxReconnectAttempts : Nat := 5

/-- The reconnect decision of `ws.onclose`: given the current value of
`reconnectAttempts.current`, return `some (newCounter, delayMs)` when a
reconnect is scheduled and `none` when reconnection is abandoned.  Mirrors

  if (reconnectAttempts.current < maxReconnectAttempts) {
    reconnectAttempts.current++;
    const delay = Math.min(1000 * Math.pow(2, reconnectAttempts.current), 30000);
    ... setTimeout(connect, delay); }

Note the counter is incremented before the delay is computed. -/
def reconnectStep (attempts : Nat) : Option (Nat × Nat) :=
  if attempts < maxReconnectAttempts then
    some (attempts + 1, min (1000 * 2 ^ (attempts + 1)) 30000)
  else none

/-- Number of reconnects scheduled over `k` consecutive `onclose` events
starting from counter value `a`, every scheduled attempt failing again. -/
def scheduledReconnects : Nat → Nat → Nat
  | _, 0 => 0
  | a, k + 1 =>
    match reconnectStep a with
    | some (a', _) => scheduledReconnects a' k + 1
    | none => scheduledReconnects a k

/-- The client-held connection state touched by `ws.onopen`. -/
structure ClientState where
  isConnected : Bool
  reconnectAttempts : Nat
deriving DecidableEq, Repr

/-- `ws.onopen`: set connected, reset the attempt counter to 0. -/
def onOpen (s : ClientState) : ClientState :=
  { s with isConnected := true, reconnectAttempts := 0 }

/-- A control message the client sends, by its `type` string. -/
structure ControlMessage where
  type : String
deriving DecidableEq, Repr

/-- The one message `ws.onopen` sends: `ws.send(JSON.stringify({ type: 'ping' }))`. -/
def onOpenControl : ControlMessage := { type := "ping" }

/-- The message `requestTasks` sends: `sendMessage({ type: 'get_tasks' })`. -/
def requestTasksControl : ControlMessage := { type := "get_tasks" }

/-- The `ActionType` enum of `frontend/src/types/index.ts`: the closed set
of action kinds, each with its wire string value. -/
inductive ActionType where
  | add_task
  | complete_task
  | list_tasks
  | modify_task
  | clear_completed
  | update_reminder
  | unclear
deriving DecidableEq, Repr, Fintype

/-- The string value each `ActionType` member is declared with. -/
def ActionType.value : ActionType → String
  | .add_task => "add_task"
  | .complete_task => "complete_task"
  | .list_tasks => "list_tasks"
  | .modify_task => "modify_task"
  | .clear_completed => "clear_completed"
  | .update_reminder => "update_reminder"
  | .unclear => "unclear"

/-- The `TaskAction` interface of `frontend/src/types/index.ts` (the
spec's StructuredAction).  The numeric `confidence` is modelled as a
rational; optional fields as `Option`. -/
structure TaskAction where
  action : ActionType
  task_description : Option String := none
  task_identifier : Option String := none
  new_description : Option String := none
  reminder_interval : Option Int := none
  priority_level : Option Int := none
  suggested_category : Option String := none
  confidence : Rat
  response_message : String
  clarification_needed : Option String := none
deriving DecidableEq, Repr

/-! ### Base64 helpers of `frontend/src/utils/api.ts`

`blobToBase64` reads the blob with `FileReader.readAsDataURL`, which
yields `"data:" ++ mime ++ ";base64," ++ btoa-encoding of the bytes`, and
keeps `result.split(',')[1]`, i.e. exactly the base64 payload (the base64
alphabet contains no comma).  `base64ToBlob` decodes with `atob`, takes
`charCodeAt` of every character into a `Uint8Array` and wraps it in a
blob with the caller-supplied MIME type.  Bytes are `Nat`s below 256;
`atob` throwing on invalid input is modelled by `Option`. -/

/-- Character of the standard base64 alphabet at index `n < 64`. -/
def b64Char (n : Nat) : Char :=
  if n < 26 then Char.ofNat (65 + n)
  else if n < 52 then Char.ofNat (97 + (n - 26))
  else if n < 62 then Char.ofNat (48 + (n - 52))
  else if n = 62 then '+'
  else '/'

/-- Index of a character in the standard base64 alphabet. -/
def b64Index (c : Char) : Option Nat :=
  let n := c.toNat
  if 65 ≤ n ∧ n ≤ 90 then some (n - 65)
  else if 97 ≤ n ∧ n ≤ 122 then some (n - 97 + 26)
  else if 48 ≤ n ∧ n ≤ 57 then some (n - 48 + 52)
  else if n = 43 then some 62
  else if n = 47 then some 63
  else none

/-- `btoa`-style base64 encoding of a byte list, with `=` padding. -/
def encodeB64 : List Nat → List Char
  | [] => []
  | [b1] => [b64Char (b1 / 4), b64Char (b1 % 4 * 16), '=', '=']
  | [b1, b2] =>
    [b64Char (b1 / 4), b64Char (b1 % 4 * 16 + b2 / 16), b64Char (b2 % 16 * 4), '=']
  | b1 :: b2 :: b3 :: rest =>
    b64Char (b1 / 4) :: b64Char (b1 % 4 * 16 + b2 / 16) ::
      b64Char (b2 % 16 * 4 + b3 / 64) :: b64Char (b3 % 64) :: encodeB64 rest

/-- `atob`-style base64 decoding on padded input; `none` where `atob`
throws (invalid character or malformed group). -/
def decodeB64 : List Char → Option (List Nat)
  | [] => some []
  | c1 :: c2 :: c3 :: c4 :: rest =>
    match b64Index c1, b64Index c2 with
    | some x, some y =>
      if c3 = '=' then
        if c4 = '=' ∧ rest = [] then some [x * 4 + y / 16] else none
      else
        match b64Index c3 with
        | some z =>
          if c4 = '=' then
            if rest = [] then some [x * 4 + y / 16, y % 16 * 16 + z / 4] else none
          else
            match b64Index c4 with
            | some w =>
              (decodeB64 rest).map fun tl =>
                (x * 4 + y / 16) :: (y % 16 * 16 + z / 4) :: (z % 4 * 64 + w) :: tl
            | none => none
        | none => none
    | _, _ => none
  | _ => none

/-- A blob: a MIME type and byte content, after the browser `Blob` as the
two helpers use it. -/
structure Blob where
  type : String
  bytes : List Nat
deriving DecidableEq, Repr

/-- `blobToBase64` of `frontend/src/utils/api.ts`: the base64 payload of
the data URL `FileReader.readAsDataURL` produces for the blob. -/
def blobToBase64 (b : Blob) : List Char := encodeB64 b.bytes

/-- `base64ToBlob` of `frontend/src/utils/api.ts`: `atob` the string,
`charCodeAt` each character into a `Uint8Array`, wrap in a blob with the
given MIME type. -/
def base64ToBlob (s : List Char) (mimeType : String) : Option Blob :=
  (decodeB64 s).map fun bs => { type := mimeType, bytes := bs }

/-- A sample task used by concrete witnesses. -/
def sampleTask (n : Int) (d : String) : Task :=
  { id := n, description := d, completed := false, priority := 3,
    category := "general", created_at := "2024-01-01T00:00:00", recurring := false }

/-! ## Theorems -/

/-- Helper: when a task with the event's id is present, the merge is the
in-place map that replaces every task with that id. -/
theorem mergeTaskUpdate_of_mem (prev : List Task) (d : Task)
    (h : ∃ t ∈ prev, t.id = d.id) :
    mergeTaskUpdate prev d = prev.map fun t => if t.id = d.id then d else t := by
  obtain ⟨t, ht, hid⟩ := h
  unfold mergeTaskUpdate
  have hfind : (prev.find? fun task => task.id = d.id).isSome := by
    rw [List.find?_isSome]
    exact ⟨t, ht, by simpa using hid⟩
  simp [hfind]

/-- Helper: when no task with the event's id is present, the merge
appends the event's task at the end of the unchanged view. -/
theorem mergeTaskUpdate_of_not_mem (prev : List Task) (d : Task)
    (h : ∀ t ∈ prev, t.id ≠ d.id) :
    mergeTaskUpdate prev d = prev ++ [d] := by
  unfold mergeTaskUpdate
  have hfind : (prev.find? fun task => task.id = d.id) = none := by
    rw [List.find?_eq_none]
    intro t ht
    simpa using h t ht
  have hmap : (prev.map fun t => if t.id = d.id then d else t) = prev := by
    conv_rhs => rw [← List.map_id prev]
    exact List.map_congr_left fun t ht => by simp [h t ht]
  simp [hfind, hmap]

/-- C1: merging a single-task upsert event into the local view replaces,
in place, every task carrying the event's id when one exists (so its list
position is preserved), and otherwise appends the event's task at the end. -/
theorem merge_upsert_replaces_in_place_or_appends (prev : List Task) (d : Task) :
    ((∃ t ∈ prev, t.id = d.id) →
      mergeTaskUpdate prev d = prev.map fun t => if t.id = d.id then d else t)
    ∧ ((∀ t ∈ prev, t.id ≠ d.id) → mergeTaskUpdate prev d = prev ++ [d]) :=
  ⟨mergeTaskUpdate_of_mem prev d, mergeTaskUpdate_of_not_mem prev d⟩

/-- C1 witness at a concrete input (the append branch). -/
theorem merge_upsert_replaces_in_place_or_appends_witness :
    mergeTaskUpdate [sampleTask 1 "a"] (sampleTask 2 "b")
      = [sampleTask 1 "a"] ++ [sampleTask 2 "b"] :=
  (merge_upsert_replaces_in_place_or_appends [sampleTask 1 "a"] (sampleTask 2 "b")).2
    (by decide)

/-- C2: a `tasks_update` message carrying a task list (empty included)
replaces the local view wholesale, whatever the previous view was. -/
theorem snapshot_replaces_view_wholesale (view ts : List Task) (d : Option Task) :
    handleMessage view (.msg { type := "tasks_update", data := d, tasks := some ts })
      = ts := by
  simp [handleMessage]

/-- C5: a successful open resets the reconnect attempt counter to 0, so
the next disconnect schedules the first-attempt backoff delay again. -/
theorem open_resets_backoff_counter (s : ClientState) :
    (onOpen s).reconnectAttempts = 0 ∧
    reconnectStep (onOpen s).reconnectAttempts = some (1, min (1000 * 2 ^ 1) 30000) :=
  ⟨rfl, rfl⟩

/-- C7: the action kind is a closed variant of exactly seven values, and
every `TaskAction` carries one of those seven kinds. -/
theorem actionType_closed_seven_kinds :
    Fintype.card ActionType = 7 ∧
    ∀ a : TaskAction,
      a.action ∈ ([.add_task, .complete_task, .list_tasks, .modify_task,
        .clear_completed, .update_reminder, .unclear] : List ActionType) := by
  refine ⟨by decide, fun a => ?_⟩
  cases a.action <;> simp

/-- Helper: closed form of `scheduledReconnects`. -/
theorem scheduledReconnects_eq (k a : Nat) :
    scheduledReconnects a k = min k (maxReconnectAttempts - a) := by
  induction k generalizing a with
  | zero => simp [scheduledReconnects]
  | succ k ih =>
    by_cases h : a < maxReconnectAttempts
    · have hstep : reconnectStep a
          = some (a + 1, min (1000 * 2 ^ (a + 1)) 30000) := by
        simp [reconnectStep, h]
      simp only [scheduledReconnects, hstep, ih (a + 1)]
      omega
    · have hstep : reconnectStep a = none := by
        simp [reconnectStep, h]
      simp only [scheduledReconnects, hstep, ih a]
      omega

/-- C3 counterexample: the delay scheduled before the first reconnection
attempt is 2000 ms, not the 1000 ms the formula min(1000*2^(n-1), 30000)
gives at n = 1: the counter is incremented before the delay is computed. -/
theorem reconnect_delay_formula_counterexample :
    reconnectStep 0 = some (1, 2000) ∧ (2000 : Nat) ≠ min (1000 * 2 ^ (1 - 1)) 30000 := by
  decide

/-- C3 (amended): for reconnection attempt n (1-based, n ≤ 5, counter at
n - 1 just before the close), the scheduled delay is min(1000 * 2^n, 30000)
ms: backoff starts at 2 s, doubles each attempt, capped at 30 s. -/
theorem reconnect_delay_doubles_from_two_seconds (n : Nat)
    (h1 : 1 ≤ n) (h2 : n ≤ maxReconnectAttempts) :
    reconnectStep (n - 1) = some (n, min (1000 * 2 ^ n) 30000) := by
  have hn : n - 1 + 1 = n := by omega
  have hlt : n - 1 < maxReconnectAttempts := by
    simp only [maxReconnectAttempts] at h2 ⊢; omega
  simp [reconnectStep, hlt, hn]

/-- C3 witness at the first attempt. -/
theorem reconnect_delay_doubles_from_two_seconds_witness :
    reconnectStep 0 = some (1, min (1000 * 2 ^ 1) 30000) :=
  reconnect_delay_doubles_from_two_seconds 1 (by decide) (by decide)

/-- C4: starting from a fresh counter, any run of consecutive failed
attempts schedules at most 5 reconnects, and once the counter has reached
5 the close handler schedules nothing more. -/
theorem reconnects_abandoned_after_five :
    (∀ k, scheduledReconnects 0 k ≤ 5) ∧
    (∀ a, maxReconnectAttempts ≤ a → reconnectStep a = none) := by
  constructor
  · intro k
    rw [scheduledReconnects_eq]
    simp [maxReconnectAttempts]
  · intro a h
    simp [reconnectStep]
    omega

/-- C4 witness: 100 consecutive closes schedule at most 5 reconnects, and
a counter of 5 schedules none. -/
theorem reconnects_abandoned_after_five_witness :
    scheduledReconnects 0 100 ≤ 5 ∧ reconnectStep 5 = none :=
  ⟨reconnects_abandoned_after_five.1 100,
    reconnects_abandoned_after_five.2 5 (by decide)⟩

/-- C6 counterexample: the message the client sends when a connection
opens has type "ping", not "request_resync", and the explicit task-list
request helper sends type "get_tasks", not "request_resync": no
request_resync control message exists in the client. -/
theorem resync_message_counterexample :
    onOpenControl.type = "ping" ∧ requestTasksControl.type = "get_tasks" ∧
    onOpenControl.type ≠ "request_resync" ∧
    requestTasksControl.type ≠ "request_resync" := by
  decide

/-- C6 (amended): on a successful open the client sends only a keep-alive
ping message, and the control message of the separate `requestTasks`
helper (not invoked automatically on open) is `get_tasks`. -/
theorem open_sends_ping_and_task_request_is_get_tasks :
    onOpenControl = { type := "ping" } ∧
    requestTasksControl = { type := "get_tasks" } :=
  ⟨rfl, rfl⟩

/-- C8: on a view with pairwise-distinct task ids, the upsert merge keeps
the ids pairwise distinct; the length is unchanged when the event's id was
already present and grows by one when it was not. -/
theorem merge_preserves_distinct_ids_and_length (prev : List Task) (d : Task)
    (hdist : prev.Pairwise fun a b => a.id ≠ b.id) :
    (mergeTaskUpdate prev d).Pairwise (fun a b => a.id ≠ b.id) ∧
    ((∃ t ∈ prev, t.id = d.id) → (mergeTaskUpdate prev d).length = prev.length) ∧
    ((∀ t ∈ prev, t.id ≠ d.id) → (mergeTaskUpdate prev d).length = prev.length + 1) := by
  refine ⟨?_, ?_, ?_⟩
  · by_cases hp : ∃ t ∈ prev, t.id = d.id
    · rw [mergeTaskUpdate_of_mem prev d hp, List.pairwise_map]
      refine hdist.imp ?_
      intro a b hab
      by_cases ha : a.id = d.id <;> by_cases hb : b.id = d.id
      · exact absurd (ha.trans hb.symm) hab
      · simp only [if_pos ha, if_neg hb]
        exact fun he => hb he.symm
      · simp only [if_neg ha, if_pos hb]
        exact ha
      · simp only [if_neg ha, if_neg hb]
        exact hab
    · push_neg at hp
      rw [mergeTaskUpdate_of_not_mem prev d hp, List.pairwise_append]
      refine ⟨hdist, by simp, ?_⟩
      intro a ha b hb
      simp only [List.mem_singleton] at hb
      subst hb
      exact hp a ha
  · intro hp
    rw [mergeTaskUpdate_of_mem prev d hp, List.length_map]
  · intro hp
    rw [mergeTaskUpdate_of_not_mem prev d hp, List.length_append, List.length_cons,
      List.length_nil]

/-- C8 witness: a concrete two-task view with distinct ids, upserting an
existing id keeps distinctness and the length. -/
theorem merge_preserves_distinct_ids_and_length_witness :
    (mergeTaskUpdate [sampleTask 1 "a", sampleTask 2 "b"]
        (sampleTask 1 "c")).Pairwise (fun a b => a.id ≠ b.id) ∧
    (mergeTaskUpdate [sampleTask 1 "a", sampleTask 2 "b"] (sampleTask 1 "c")).length = 2 :=
  ⟨(merge_preserves_distinct_ids_and_length _ _ (by decide)).1,
    (merge_preserves_distinct_ids_and_length _ _ (by decide)).2.1
      ⟨sampleTask 1 "a", by decide, by decide⟩⟩

/-- C9: every inbound message that is not a well-formed update — a parse
failure, an unrecognized type, a `tasks_update` without a `tasks` field or
a `task_update` without a `data` field — leaves the local view unchanged
(and, the handler being a total function with the parse failure caught, no
error escapes). -/
theorem malformed_messages_leave_view_unchanged (view : List Task) :
    handleMessage view .malformed = view ∧
    (∀ m : WsMessage, m.type ∉ (["pong", "tasks_update", "task_update"] : List String) →
      handleMessage view (.msg m) = view) ∧
    (∀ d, handleMessage view (.msg { type := "tasks_update", data := d, tasks := none })
      = view) ∧
    (∀ ts, handleMessage view (.msg { type := "task_update", data := none, tasks := ts })
      = view) := by
  refine ⟨rfl, ?_, fun d => by simp [handleMessage], fun ts => by simp [handleMessage]⟩
  intro m hm
  simp only [List.mem_cons, List.mem_singleton, not_or] at hm
  obtain ⟨h1, h2, h3, -⟩ := hm
  simp [handleMessage, h1, h2, h3]

/-- C9 witness: a message with an unrecognized type leaves a concrete
view unchanged. -/
theorem malformed_messages_leave_view_unchanged_witness :
    handleMessage [sampleTask 1 "a"] (.msg { type := "bogus" }) = [sampleTask 1 "a"] :=
  (malformed_messages_leave_view_unchanged [sampleTask 1 "a"]).2.1
    { type := "bogus" } (by decide)

/-- Helper: the alphabet index map inverts the alphabet character map. -/
theorem b64Index_b64Char : ∀ n < 64, b64Index (b64Char n) = some n := by decide

/-- Helper: no alphabet character is the padding character. -/
theorem b64Char_ne_pad : ∀ n < 64, b64Char n ≠ '=' := by decide

/-- Helper: decoding inverts encoding on byte lists. -/
theorem decodeB64_encodeB64 : ∀ bs : List Nat, (∀ b ∈ bs, b < 256) →
    decodeB64 (encodeB64 bs) = some bs
  | [], _ => by simp [encodeB64, decodeB64]
  | [b1], h => by
    have hb1 : b1 < 256 := h b1 (by simp)
    have e1 := b64Index_b64Char (b1 / 4) (by omega)
    have e2 := b64Index_b64Char (b1 % 4 * 16) (by omega)
    simp [encodeB64, decodeB64, e1, e2]
    omega
  | [b1, b2], h => by
    have hb1 : b1 < 256 := h b1 (by simp)
    have hb2 : b2 < 256 := h b2 (by simp)
    have e1 := b64Index_b64Char (b1 / 4) (by omega)
    have e2 := b64Index_b64Char (b1 % 4 * 16 + b2 / 16) (by omega)
    have e3 := b64Index_b64Char (b2 % 16 * 4) (by omega)
    have n3 := b64Char_ne_pad (b2 % 16 * 4) (by omega)
    simp [encodeB64, decodeB64, e1, e2, e3, n3]
    omega
  | b1 :: b2 :: b3 :: rest, h => by
    have hb1 : b1 < 256 := h b1 (by simp)
    have hb2 : b2 < 256 := h b2 (by simp)
    have hb3 : b3 < 256 := h b3 (by simp)
    have e1 := b64Index_b64Char (b1 / 4) (by omega)
    have e2 := b64Index_b64Char (b1 % 4 * 16 + b2 / 16) (by omega)
    have e3 := b64Index_b64Char (b2 % 16 * 4 + b3 / 64) (by omega)
    have e4 := b64Index_b64Char (b3 % 64) (by omega)
    have n3 := b64Char_ne_pad (b2 % 16 * 4 + b3 / 64) (by omega)
    have n4 := b64Char_ne_pad (b3 % 64) (by omega)
    have ih := decodeB64_encodeB64 rest fun b hb => h b (by simp [hb])
    simp [encodeB64, decodeB64, e1, e2, e3, e4, n3, n4, ih]
    omega

/-- C10: decoding the base64 string `blobToBase64` produces recovers a
blob with exactly the original byte content (and the MIME type passed to
`base64ToBlob`). -/
theorem blob_base64_roundtrip (b : Blob) (mime : String)
    (h : ∀ x ∈ b.bytes, x < 256) :
    base64ToBlob (blobToBase64 b) mime = some { type := mime, bytes := b.bytes } := by
  simp [base64ToBlob, blobToBase64, decodeB64_encodeB64 b.bytes h]

/-- C10 witness on a concrete three-byte blob. -/
theorem blob_base64_roundtrip_witness :
    base64ToBlob (blobToBase64 { type := "audio/wav", bytes := [72, 101, 121] })
        "audio/wav"
      = some { type := "audio/wav", bytes := [72, 101, 121] } :=
  blob_base64_roundtrip { type := "audio/wav", bytes := [72, 101, 121] } "audio/wav"
    (by decide)

end TaskReminder
